import Mathlib

/-!
# LambdaEdge Variable Injector: a shallow embedding

Source files embedded here:

* `src/lambda/handler.js` (`handledLanguages`, `handleCreateAndUpdate`, `getParameters`,
  `getLambdaZip`, `uploadZipToS3`)
* `src/lambda/index.js` (`create`, `update`)
* `src/lambda/language-payloads/node/index.js` (`handleNodeLambda`)
* `src/lambda/language-payloads/python/index.js` (`handlePythonLambda`)

JavaScript values are the JSON fragment that a lifecycle event can carry. Promises are
modelled by their settled result, a thrown `Error` by `Except.error`, and the object store
by a record of the calls made on it.
-/

namespace VariableInjector

/-! ## JavaScript values -/

/-- JavaScript values that a JSON event can carry, plus `undefined` for a missing property.
Numbers are integers: the code only tests their truthiness and their `typeof`. An object is
the list of its own entries in `Object.entries` order. -/
inductive JVal where
  | undefined : JVal
  | null : JVal
  | bool (b : Bool) : JVal
  | num (n : Int) : JVal
  | str (s : String) : JVal
  | arr (xs : List JVal) : JVal
  | obj (ps : List (String × JVal)) : JVal

namespace JVal

/-- The test `!v`: `undefined`, `null`, `false`, `0` and the empty string are falsy. -/
def falsy : JVal → Bool
  | undefined => true
  | null => true
  | bool b => !b
  | num n => n == 0
  | str s => s == ""
  | arr _ => false
  | obj _ => false

/-- The operator `a || b`. -/
def orElse (a b : JVal) : JVal :=
  if a.falsy then b else a

/-- The operator `typeof v`. -/
def typeof : JVal → String
  | undefined => "undefined"
  | null => "object"
  | bool _ => "boolean"
  | num _ => "number"
  | str _ => "string"
  | arr _ => "object"
  | obj _ => "object"

/-- The test `typeof v === "string"`. -/
def isString (v : JVal) : Bool :=
  v.typeof == "string"

/-- The test `typeof v === "object"`. -/
def isObjectType (v : JVal) : Bool :=
  v.typeof == "object"

/-- The call `Array.isArray(v)`. -/
def isArray : JVal → Bool
  | arr _ => true
  | _ => false

/-- Own-property lookup in an entry list; a missing key reads as `undefined`. -/
def lookupProp : List (String × JVal) → String → JVal
  | [], _ => undefined
  | (k, v) :: rest, name => if k = name then v else lookupProp rest name

/-- Property read `v.name` for a name that no prototype defines: an own entry of an object,
`undefined` on every other value. -/
def getProp : JVal → String → JVal
  | obj ps, name => lookupProp ps name
  | _, _ => undefined

/-- The call `Object.entries(v)` on an object; it is only reached on objects. -/
def entries : JVal → List (String × JVal)
  | obj ps => ps
  | _ => []

end JVal

/-- Decimal rendering of a number. -/
def numberToString (n : Int) : String :=
  if n < 0 then "-" ++ toString n.natAbs else toString n.natAbs

mutual

/-- The abstract operation `ToString`, as applied by a template literal, by string
concatenation and by a property key. It is the identity on strings. -/
def toJSString : JVal → String
  | JVal.undefined => "undefined"
  | JVal.null => "null"
  | JVal.bool b => if b then "true" else "false"
  | JVal.num n => numberToString n
  | JVal.str s => s
  | JVal.arr xs => String.intercalate "," (joinElements xs)
  | JVal.obj _ => "[object Object]"

/-- Elements of `Array.prototype.join`: `undefined` and `null` are written empty. -/
def joinElements : List JVal → List String
  | [] => []
  | JVal.undefined :: xs => "" :: joinElements xs
  | JVal.null :: xs => "" :: joinElements xs
  | x :: xs => toJSString x :: joinElements xs

end

/-! ## `JSON.stringify(value, null, 2)` -/

/-- Hexadecimal digit, lowercase. -/
def hexDigit (n : Nat) : Char :=
  if n < 10 then Char.ofNat (48 + n) else Char.ofNat (87 + n)

/-- The escape `\uXXXX` of a code unit below `0x10000`. -/
def unicodeEscape (n : Nat) : String :=
  "\\u" ++ String.mk [hexDigit (n / 4096 % 16), hexDigit (n / 256 % 16),
    hexDigit (n / 16 % 16), hexDigit (n % 16)]

/-- One character of `QuoteJSONString`. -/
def quoteChar (c : Char) : String :=
  if c = Char.ofNat 8 then "\\b"
  else if c = Char.ofNat 9 then "\\t"
  else if c = Char.ofNat 10 then "\\n"
  else if c = Char.ofNat 12 then "\\f"
  else if c = Char.ofNat 13 then "\\r"
  else if c = Char.ofNat 34 then "\\\""
  else if c = Char.ofNat 92 then "\\\\"
  else if c.toNat < 32 then unicodeEscape c.toNat
  else String.singleton c

/-- The abstract operation `QuoteJSONString`. -/
def quoteJSONString (s : String) : String :=
  "\"" ++ String.join (s.toList.map quoteChar) ++ "\""

mutual

/-- Operation `SerializeJSONProperty` with a gap of two spaces; `none` is the result `undefined`. -/
def serializeJSON (indent : String) : JVal → Option String
  | JVal.undefined => none
  | JVal.null => some "null"
  | JVal.bool b => some (if b then "true" else "false")
  | JVal.num n => some (numberToString n)
  | JVal.str s => some (quoteJSONString s)
  | JVal.arr xs =>
    match serializeElements (indent ++ "  ") xs with
    | [] => some "[]"
    | items => some ("[\n" ++ indent ++ "  " ++ String.intercalate (",\n" ++ indent ++ "  ") items
        ++ "\n" ++ indent ++ "]")
  | JVal.obj ps =>
    match serializeMembers (indent ++ "  ") ps with
    | [] => some "\x7b\x7d"
    | items => some ("\x7b\n" ++ indent ++ "  " ++ String.intercalate (",\n" ++ indent ++ "  ") items
        ++ "\n" ++ indent ++ "\x7d")

/-- Elements of `SerializeJSONArray`: an `undefined` element is written `null`. -/
def serializeElements (indent : String) : List JVal → List String
  | [] => []
  | x :: xs => ((serializeJSON indent x).getD "null") :: serializeElements indent xs

/-- Members of `SerializeJSONObject`: an entry whose value is `undefined` is left out. -/
def serializeMembers (indent : String) : List (String × JVal) → List String
  | [] => []
  | (k, v) :: ps =>
    match serializeJSON indent v with
    | none => serializeMembers indent ps
    | some text => (quoteJSONString k ++ ": " ++ text) :: serializeMembers indent ps

end

/-- The call `JSON.stringify(value, null, 2)`. -/
def jsonStringify (v : JVal) : Option String :=
  serializeJSON "" v

/-- A template-literal placeholder holding `JSON.stringify(value, null, 2)`: the result
`undefined` is rendered as the text `undefined`. -/
def jsonStringifyText (v : JVal) : String :=
  (jsonStringify v).getD "undefined"

/-! ## The archive -/

/-- An archive held in memory: its entries, path and contents, with contents kept opaque. -/
abbrev Archive := List (String × String)

namespace Archive

/-- Contents of the entry at a path, if there is one. -/
def read : Archive → String → Option String
  | [], _ => none
  | (p, d) :: rest, path => if p = path then some d else read rest path

/-- Paths of the entries. -/
def paths (zip : Archive) : List String :=
  zip.map Prod.fst

/-- Modelled from the spec: `addOrReplace(archive, path, contents)`, the call
`lambdaZip.file(name, data)` of the archive library, whose code is outside the repository.
It inserts a text entry; if the path already exists the new contents replace it. -/
def file : Archive → String → String → Archive
  | [], name, data => [(name, data)]
  | (p, d) :: rest, name, data =>
    if p = name then (name, data) :: rest else (p, d) :: file rest name data

end Archive

/-! ## Language payloads -/

/-- The template literal `fileContents` of `language-payloads/node/index.js`. -/
def nodeFileContents (envParams : JVal) : String :=
  "\nconst envVars = " ++ jsonStringifyText envParams
    ++ ";\n\nfor (const [key, val] of Object.entries(envVars)) \x7b\n  process.env[key] = val;\n\x7d\n\nmodule.exports = envVar;\n"

/-- The function `handleNodeLambda(lambdaZip, envFileName, envParams)`. The archive library
call is total, so the `catch` branch is never entered. -/
def handleNodeLambda (lambdaZip : Archive) (envFileName : JVal) (envParams : JVal) : Archive :=
  let envFileName := if envFileName.falsy then JVal.str "env.js" else envFileName
  let fileContents := nodeFileContents envParams
  lambdaZip.file (toJSString envFileName) fileContents

/-- The template literal `fileContents` of `language-payloads/python/index.js`. -/
def pythonFileContents (envParams : JVal) : String :=
  "\nimport os\n\nenv_vars = " ++ jsonStringifyText envParams
    ++ "\n\nfor key, value in env_vars.items():\n  os.environ[key] = value\n"

/-- The function `handlePythonLambda(lambdaZip, envFileName, envParams)`. The archive library
call is total, so the `catch` branch is never entered. -/
def handlePythonLambda (lambdaZip : Archive) (envFileName : JVal) (envParams : JVal) : Archive :=
  let envFileName := if envFileName.falsy then JVal.str "env.py" else envFileName
  let fileContents := pythonFileContents envParams
  lambdaZip.file (toJSString envFileName) fileContents

/-! ## `handler.js` -/

/-- A thrown JavaScript error: an `Error` built by the code with its message, or a
`TypeError` raised by the runtime. -/
inductive JSError where
  | error (message : String) : JSError
  | typeError : JSError

/-- A call made on the object-store client `s3`. -/
inductive S3Call where
  | getObject (bucket key : String) : S3Call
  | putObject (bucket key : String) (body : List Nat) : S3Call

/-- What an asynchronous function did: the object-store calls it made, in order, and the
value it resolved to or the error it rejected with. -/
structure Outcome (α : Type) where
  calls : List S3Call
  result : Except JSError α

/-- The host of one invocation: the process environment, the clock, the object store and
the archive library. A failing call carries the message of its error. -/
structure Host where
  /-- The variable `process.env.OUTPUT_BUCKET`. -/
  OUTPUT_BUCKET : Option String
  /-- The value of `new Date().toISOString()`. -/
  now : String
  /-- The body that `s3.getObject` resolves to, `none` when it rejects. -/
  getObject : String → String → Option (List Nat)
  /-- The archive that `JSZip.loadAsync` resolves to, `none` when it rejects. -/
  loadAsync : List Nat → Option Archive
  /-- The buffer that `generateNodeStream` pipes out. -/
  generateNodeStream : Archive → Except String (List Nat)
  /-- The settling of `s3.putObject`. -/
  putObject : String → String → List Nat → Except String Unit

/-- The lifecycle event, reduced to the field that `getParameters` reads. -/
structure Event where
  ResourceProperties : JVal

/-- The typedef `HandlerParameters`. -/
structure HandlerParameters where
  outputBucket : JVal
  lambdaBucket : JVal
  lambdaKey : JVal
  payloadLang : JVal
  envParams : JVal
  envFileName : JVal

/-- The typedef `S3PayloadResponse`. -/
structure S3PayloadResponse where
  LambdaBucket : JVal
  LambdaKey : String

/-- A value of `process.env`: a string, or `undefined` when the variable is not set. -/
def envValue : Option String → JVal
  | none => JVal.undefined
  | some s => JVal.str s

/-- The loop of `getParameters` over `Object.entries(envParams)`: the key of the first entry
whose value is not of type string. -/
def firstNonString : List (String × JVal) → Option String
  | [] => none
  | (key, val) :: rest => if !val.isString then some key else firstNonString rest

/-- The function `getParameters(event)`, with `process.env.OUTPUT_BUCKET` as an argument. -/
def getParameters (OUTPUT_BUCKET : Option String) (event : Event) :
    Except JSError HandlerParameters :=
  let properties := event.ResourceProperties.orElse (JVal.obj [])
  let lambdaBucket := properties.getProp "LambdaBucket"
  let lambdaKey := properties.getProp "LambdaKey"
  let payloadLang := properties.getProp "PayloadLanguage"
  let envParams := properties.getProp "EnvironmentVariables"
  let envFileName := (properties.getProp "EnvironmentFile").orElse JVal.null
  let outputBucket := (properties.getProp "OutputBucket").orElse (envValue OUTPUT_BUCKET)
  if lambdaBucket.falsy then
    .error (.error "Was not provided the \x27LambdaBucket\x27 ResourceProperty.")
  else if lambdaKey.falsy then
    .error (.error "Was not provided the \x27LambdaKey\x27 ResourceProperty.")
  else if payloadLang.falsy then
    .error (.error "Was not provided the \x27PayloadLanguage\x27 ResourceProperty.")
  else if envParams.falsy then
    .error (.error "Was not provided the \x27EnvironmentVariables\x27 ResourceProperty.")
  else if outputBucket.falsy then
    .error (.error ("No \x27OutputBucket\x27 was specified. One can be provided globally via the "
      ++ "VariableInjector definition\x27s EnvironmentVariables.OUTPUT_BUCKET_NAME or locally via CustomResource.Properties.OutputBucket"))
  else if !lambdaBucket.isString then
    .error (.error "Type of \x27LambdaBucket\x27 must be a String")
  else if !lambdaKey.isString then
    .error (.error "Type of \x27LambdaKey\x27 must be a String")
  else if !payloadLang.isString then
    .error (.error "Type of \x27PayloadLanguage\x27 must be a String")
  else if !outputBucket.isString then
    .error (.error "Type of \x27OutputBucket\x27 must be a String")
  else if !envParams.isObjectType || envParams.isArray then
    .error (.error "The \x27EnvironmentVariables\x27 property must be an Object of KeyValue pairs.")
  else
    match firstNonString envParams.entries with
    | some key =>
      .error (.error ("EnvironmentVariables must be of type string. \x27EnvironmentVariables."
        ++ key ++ "\x27 is not of type string."))
    | none =>
      .ok { outputBucket := outputBucket, lambdaBucket := lambdaBucket, lambdaKey := lambdaKey,
            payloadLang := payloadLang, envParams := envParams, envFileName := envFileName }

/-- A value read out of the object `handledLanguages`. -/
inductive LanguageHandler where
  | handleNodeLambda : LanguageHandler
  | handlePythonLambda : LanguageHandler
  | objectPrototype (name : String) : LanguageHandler

/-- The own keys of the object `handledLanguages`, as `Object.keys` lists them. -/
def handledLanguagesKeys : List String :=
  ["node", "python"]

/-- The properties that the object literal `handledLanguages` inherits from
`Object.prototype`. Each one holds a function, or for `__proto__` the prototype object,
so each one is truthy. -/
def objectPrototypeNames : List String :=
  ["constructor", "__defineGetter__", "__defineSetter__", "hasOwnProperty",
   "__lookupGetter__", "__lookupSetter__", "isPrototypeOf", "propertyIsEnumerable",
   "toString", "valueOf", "__proto__", "toLocaleString"]

/-- The property read `handledLanguages[payloadLang]`; `none` is `undefined`. The read goes
through the prototype chain of the object literal. -/
def handledLanguages (payloadLang : String) : Option LanguageHandler :=
  if payloadLang = "node" then some .handleNodeLambda
  else if payloadLang = "python" then some .handlePythonLambda
  else if payloadLang ∈ objectPrototypeNames then some (.objectPrototype payloadLang)
  else none

/-- The call `handleLambda(lambdaZip, envFileName, envParams)`. Of the inherited values,
`Object` (read at `constructor`) returns its argument and `Object.prototype.toString`
returns a string, both leaving the archive as it is; every other one throws a `TypeError`
when called without a receiver, and `__proto__` is not a function. -/
def callHandler : LanguageHandler → Archive → JVal → JVal → Except JSError Archive
  | .handleNodeLambda, lambdaZip, envFileName, envParams =>
    .ok (handleNodeLambda lambdaZip envFileName envParams)
  | .handlePythonLambda, lambdaZip, envFileName, envParams =>
    .ok (handlePythonLambda lambdaZip envFileName envParams)
  | .objectPrototype name, lambdaZip, _, _ =>
    if name = "constructor" ∨ name = "toString" then .ok lambdaZip else .error .typeError

/-- The function `getLambdaZip(lambdaBucket, lambdaKey)`. The ill-formed `return throw` of
its first `catch` is read as `throw`. -/
def getLambdaZip (host : Host) (lambdaBucket lambdaKey : String) : Outcome Archive :=
  { calls := [S3Call.getObject lambdaBucket lambdaKey]
    result :=
      match host.getObject lambdaBucket lambdaKey with
      | none =>
        .error (.error ("Could not find zip file in S3. Bucket: \x27" ++ lambdaBucket
          ++ "\x27, Key: \x27" ++ lambdaKey ++ "\x27"))
      | some lambdaZipRaw =>
        match host.loadAsync lambdaZipRaw with
        | none =>
          .error (.error ("URL pointed to a file that could not be understood as a zip. Bucket: \x27"
            ++ lambdaBucket ++ "\x27, Key: \x27" ++ lambdaKey ++ "\x27"))
        | some lambdaZip => .ok lambdaZip }

/-- The function `getZipBuffer(zip)`: the contents of the stream buffer once the archive
stream has finished, or the message of the stream error. -/
def getZipBuffer (host : Host) (zip : Archive) : Except String (List Nat) :=
  host.generateNodeStream zip

/-- The function `uploadZipToS3(zip, outputBucket, fileName)`: the calls it makes and its
settling; a failure carries the message of the underlying error. -/
def uploadZipToS3 (host : Host) (zip : Archive) (outputBucket fileName : String) :
    List S3Call × Except String Unit :=
  match getZipBuffer host zip with
  | .error message => ([], .error message)
  | .ok zipAsBuffer =>
    ([S3Call.putObject outputBucket fileName zipAsBuffer],
      host.putObject outputBucket fileName zipAsBuffer)

/-- The template literal that builds `newLambdaKey`. -/
def newLambdaKey (lambdaKey : String) (isoString : String) : String :=
  lambdaKey ++ "--env/" ++ isoString ++ ".zip"

/-- The text `formattedAllowedLanguages`. -/
def formattedAllowedLanguages : String :=
  String.intercalate ", " (handledLanguagesKeys.map (fun lang => "\x27" ++ lang ++ "\x27"))

/-- The function `handleCreateAndUpdate(event)`. The ill-formed `return throw` of the upload
`catch` is read as `throw`; the `console.log` of the response URL is left out. -/
def handleCreateAndUpdate (host : Host) (event : Event) : Outcome S3PayloadResponse :=
  match getParameters host.OUTPUT_BUCKET event with
  | .error e => { calls := [], result := .error e }
  | .ok params =>
    match handledLanguages (toJSString params.payloadLang) with
    | none =>
      { calls := []
        result := .error (.error ("Unrecognized \x27PayloadLanguage\x27 provided. Provided: \x27"
          ++ toJSString params.payloadLang ++ "\x27. Allowed: [" ++ formattedAllowedLanguages ++ "]")) }
    | some handleLambda =>
      let fetched := getLambdaZip host (toJSString params.lambdaBucket) (toJSString params.lambdaKey)
      match fetched.result with
      | .error e => { calls := fetched.calls, result := .error e }
      | .ok lambdaZip =>
        match callHandler handleLambda lambdaZip params.envFileName params.envParams with
        | .error e => { calls := fetched.calls, result := .error e }
        | .ok lambdaZip =>
          let newKey := newLambdaKey (toJSString params.lambdaKey) host.now
          match uploadZipToS3 host lambdaZip (toJSString params.outputBucket) newKey with
          | (calls, .error message) =>
            { calls := fetched.calls ++ calls
              result := .error (.error ("Failed to upload new zip. Error: " ++ message
                ++ ". SrcBucket: \x27" ++ toJSString params.lambdaBucket
                ++ "\x27, SrcKey: \x27" ++ toJSString params.lambdaKey
                ++ "\x27, NewBucket: \x27" ++ toJSString params.outputBucket
                ++ "\x27, NewKey: \x27" ++ newKey ++ "\x27")) }
          | (calls, .ok _) =>
            { calls := fetched.calls ++ calls
              result := .ok { LambdaBucket := params.outputBucket, LambdaKey := newKey } }

/-! ## `index.js` -/

/-- The constant `PHYSICAL_RESOURCE_ID`. -/
def PHYSICAL_RESOURCE_ID : String :=
  "lambda-edge-variable-injector"

/-- The object that `create` and `update` return. -/
structure ResourceResult where
  id : String
  data : S3PayloadResponse

/-- The entry point `create(event, context)`. -/
def create (host : Host) (event : Event) : Outcome ResourceResult :=
  let handled := handleCreateAndUpdate host event
  { calls := handled.calls
    result := handled.result.map (fun data => { id := PHYSICAL_RESOURCE_ID, data := data }) }

/-- The entry point `update(event, context)`. -/
def update (host : Host) (event : Event) : Outcome ResourceResult :=
  let handled := handleCreateAndUpdate host event
  { calls := handled.calls
    result := handled.result.map (fun data => { id := PHYSICAL_RESOURCE_ID, data := data }) }

/-! ## Statement-level vocabulary -/

/-- The path the emitters write to: the name given, or the default when none is given.
A name is given when `envFileName` is truthy; `getParameters` hands the emitters `null`
for a missing or empty `EnvironmentFile`. -/
def generatedFileName (defaultName : String) (envFileName : JVal) : String :=
  if envFileName.falsy then defaultName else toJSString envFileName

/-- The property bag that `getParameters` reads. -/
def propertyBag (event : Event) : JVal :=
  event.ResourceProperties.orElse (JVal.obj [])

/-- The output bucket after resolution: the one of the request when it gives one, else the
default of the process environment. -/
def resolvedOutputBucket (OUTPUT_BUCKET : Option String) (event : Event) : JVal :=
  ((propertyBag event).getProp "OutputBucket").orElse (envValue OUTPUT_BUCKET)

/-- The four required properties, in the order of the presence rule. -/
def requiredProperties (event : Event) : List (String × JVal) :=
  [("LambdaBucket", (propertyBag event).getProp "LambdaBucket"),
   ("LambdaKey", (propertyBag event).getProp "LambdaKey"),
   ("PayloadLanguage", (propertyBag event).getProp "PayloadLanguage"),
   ("EnvironmentVariables", (propertyBag event).getProp "EnvironmentVariables")]

/-- The four string-valued properties, in the order of the type rule. -/
def stringProperties (OUTPUT_BUCKET : Option String) (event : Event) : List (String × JVal) :=
  [("LambdaBucket", (propertyBag event).getProp "LambdaBucket"),
   ("LambdaKey", (propertyBag event).getProp "LambdaKey"),
   ("PayloadLanguage", (propertyBag event).getProp "PayloadLanguage"),
   ("OutputBucket", resolvedOutputBucket OUTPUT_BUCKET event)]

/-- The name of the first property of a list whose value passes a test. -/
def firstWhere (test : JVal → Bool) : List (String × JVal) → Option String
  | [] => none
  | (name, v) :: rest => if test v then some name else firstWhere test rest

/-- The message of the presence rule. -/
def missingMessage (name : String) : String :=
  "Was not provided the \x27" ++ name ++ "\x27 ResourceProperty."

/-- The message of the type rule. -/
def typeMessage (name : String) : String :=
  "Type of \x27" ++ name ++ "\x27 must be a String"

/-- The message of the output-bucket rule. -/
def noOutputBucketMessage : String :=
  "No \x27OutputBucket\x27 was specified. One can be provided globally via the "
    ++ "VariableInjector definition\x27s EnvironmentVariables.OUTPUT_BUCKET_NAME or locally via CustomResource.Properties.OutputBucket"

/-- The message for an `EnvironmentVariables` that is not a keyed mapping. -/
def notMappingMessage : String :=
  "The \x27EnvironmentVariables\x27 property must be an Object of KeyValue pairs."

/-- The message for a value of `EnvironmentVariables` that is not a string. -/
def valueTypeMessage (key : String) : String :=
  "EnvironmentVariables must be of type string. \x27EnvironmentVariables." ++ key
    ++ "\x27 is not of type string."

/-- The message for an unrecognised `PayloadLanguage`. -/
def unrecognizedMessage (payloadLang : String) : String :=
  "Unrecognized \x27PayloadLanguage\x27 provided. Provided: \x27" ++ payloadLang
    ++ "\x27. Allowed: [\x27node\x27, \x27python\x27]"

/-- The requests that `handleCreateAndUpdate` rejects before any object-store call: a
required property is absent (falsy), no output bucket is given by the request or by the
default, one of the four string-valued properties is not a string, `EnvironmentVariables`
is not a keyed mapping whose values are all strings, or `PayloadLanguage` is a string that
is neither `node` nor `python` nor the name of a property inherited from
`Object.prototype`. -/
def invalidRequest (OUTPUT_BUCKET : Option String) (event : Event) : Prop :=
  (∃ p ∈ requiredProperties event, p.2.falsy = true)
  ∨ (resolvedOutputBucket OUTPUT_BUCKET event).falsy = true
  ∨ (∃ p ∈ stringProperties OUTPUT_BUCKET event, p.2.isString = false)
  ∨ (∀ ps, (propertyBag event).getProp "EnvironmentVariables" ≠ JVal.obj ps)
  ∨ (∃ ps, (propertyBag event).getProp "EnvironmentVariables" = JVal.obj ps
      ∧ ∃ kv ∈ ps, kv.2.isString = false)
  ∨ (∃ payloadLang, (propertyBag event).getProp "PayloadLanguage" = JVal.str payloadLang
      ∧ payloadLang ≠ "node" ∧ payloadLang ≠ "python" ∧ payloadLang ∉ objectPrototypeNames)

/-! ## Sample hosts and events -/

/-- A host on which every call succeeds: the store holds an archive with one entry under
every key, and the serialised archive is the list of the lengths of its entries. -/
def cooperativeHost : Host :=
  { OUTPUT_BUCKET := some "default-bucket"
    now := "2024-01-02T03:04:05.678Z"
    getObject := fun _ _ => some [80, 75, 3, 4]
    loadAsync := fun _ => some [("index.js", "exports.handler = 0")]
    generateNodeStream := fun zip => .ok (zip.map (fun e => e.2.length))
    putObject := fun _ _ _ => .ok () }

/-- A request with the given language, a given environment file name and an output bucket
of its own. -/
def sampleEvent (payloadLang : String) (envFileName : JVal) : Event :=
  { ResourceProperties := JVal.obj [("LambdaBucket", JVal.str "src"),
      ("LambdaKey", JVal.str "index.zip"), ("PayloadLanguage", JVal.str payloadLang),
      ("EnvironmentVariables", JVal.obj [("A", JVal.str "1")]),
      ("EnvironmentFile", envFileName), ("OutputBucket", JVal.str "out")] }

/-! ## Lemmas on values -/

theorem isString_iff (v : JVal) : v.isString = true ↔ ∃ s, v = JVal.str s := by
  cases v <;> simp [JVal.isString, JVal.typeof]

theorem isString_str (s : String) : (JVal.str s).isString = true := by
  simp [JVal.isString, JVal.typeof]

theorem truthy_object_iff (v : JVal) (hv : v.falsy = false) :
    (!v.isObjectType || v.isArray) = false ↔ ∃ ps, v = JVal.obj ps := by
  cases v <;> simp [JVal.isObjectType, JVal.typeof, JVal.isArray, JVal.falsy] at hv ⊢

theorem firstNonString_eq_none (ps : List (String × JVal)) :
    firstNonString ps = none ↔ ∀ kv ∈ ps, kv.2.isString = true := by
  induction ps with
  | nil => simp [firstNonString]
  | cons kv rest ih =>
    obtain ⟨k, v⟩ := kv
    by_cases hv : v.isString = true
    · simp [firstNonString, hv, ih]
    · simp [firstNonString, hv]

theorem firstNonString_first (pre post : List (String × JVal)) (key : String) (val : JVal)
    (hpre : ∀ kv ∈ pre, kv.2.isString = true) (hval : val.isString = false) :
    firstNonString (pre ++ (key, val) :: post) = some key := by
  induction pre with
  | nil => simp [firstNonString, hval]
  | cons kv rest ih =>
    obtain ⟨k, v⟩ := kv
    have hv : v.isString = true := hpre (k, v) (by simp)
    have hrest : ∀ kv ∈ rest, kv.2.isString = true := fun kv hkv => hpre kv (by simp [hkv])
    simp [firstNonString, hv, ih hrest]

/-! ## Lemmas on the archive -/

theorem read_file_same (zip : Archive) (name data : String) :
    (Archive.file zip name data).read name = some data := by
  induction zip with
  | nil => simp [Archive.file, Archive.read]
  | cons e rest ih =>
    obtain ⟨p, d⟩ := e
    by_cases hp : p = name
    · simp [Archive.file, Archive.read, hp]
    · simp [Archive.file, Archive.read, hp, ih]

theorem read_file_other (zip : Archive) (name data path : String) (hne : path ≠ name) :
    (Archive.file zip name data).read path = zip.read path := by
  induction zip with
  | nil => simp [Archive.file, Archive.read, Ne.symm hne]
  | cons e rest ih =>
    obtain ⟨p, d⟩ := e
    by_cases hp : p = name
    · subst hp
      simp [Archive.file, Archive.read, Ne.symm hne]
    · by_cases hq : p = path
      · subst hq
        simp [Archive.file, Archive.read, hp]
      · simp [Archive.file, Archive.read, hp, hq, ih]

theorem filter_other_file (zip : Archive) (name data : String) :
    (Archive.file zip name data).filter (fun e => decide (e.1 ≠ name))
      = zip.filter (fun e => decide (e.1 ≠ name)) := by
  induction zip with
  | nil => simp [Archive.file]
  | cons e rest ih =>
    obtain ⟨p, d⟩ := e
    by_cases hp : p = name
    · simp [Archive.file, hp]
    · have ih2 : List.filter (fun e => !decide (e.1 = name)) (Archive.file rest name data)
          = List.filter (fun e => !decide (e.1 = name)) rest := by simpa using ih
      simp [Archive.file, hp, ih2]

theorem filter_same_file (zip : Archive) (name data : String)
    (hpaths : (Archive.paths zip).Nodup) :
    (Archive.file zip name data).filter (fun e => decide (e.1 = name)) = [(name, data)] := by
  induction zip with
  | nil => simp [Archive.file]
  | cons e rest ih =>
    obtain ⟨p, d⟩ := e
    have hnodup : p ∉ Archive.paths rest ∧ (Archive.paths rest).Nodup := by
      simpa [Archive.paths] using hpaths
    by_cases hp : p = name
    · subst hp
      have hnone : ∀ e ∈ rest, ¬ e.1 = p := by
        intro e he heq
        exact hnodup.1 (by simpa [Archive.paths] using ⟨e.2, by rw [← heq]; exact he⟩)
      simp [Archive.file, List.filter_eq_nil_iff]
      exact fun a b hab => hnone (a, b) hab
    · simp [Archive.file, hp, ih hnodup.2]

theorem paths_file (zip : Archive) (name data : String) :
    (Archive.file zip name data).paths
      = if name ∈ zip.paths then zip.paths else zip.paths ++ [name] := by
  induction zip with
  | nil => simp [Archive.file, Archive.paths]
  | cons e rest ih =>
    obtain ⟨p, d⟩ := e
    by_cases hp : p = name
    · simp [Archive.file, Archive.paths, hp]
    · have ih2 : List.map Prod.fst (Archive.file rest name data)
          = if name ∈ List.map Prod.fst rest then List.map Prod.fst rest
            else List.map Prod.fst rest ++ [name] := ih
      by_cases hmem : name ∈ List.map Prod.fst rest
      · simp [Archive.file, Archive.paths, hp, ih2, hmem]
      · simp [Archive.file, Archive.paths, hp, ih2, hmem, Ne.symm hp]

/-! ## Lemmas on `getParameters` -/

/-- The rules of `getParameters` in order, each with its message. -/
theorem getParameters_eq (OUTPUT_BUCKET : Option String) (event : Event) :
    getParameters OUTPUT_BUCKET event =
      match firstWhere JVal.falsy (requiredProperties event) with
      | some name => .error (.error (missingMessage name))
      | none =>
        if (resolvedOutputBucket OUTPUT_BUCKET event).falsy then
          .error (.error noOutputBucketMessage)
        else
          match firstWhere (fun v => !v.isString) (stringProperties OUTPUT_BUCKET event) with
          | some name => .error (.error (typeMessage name))
          | none =>
            if (!((propertyBag event).getProp "EnvironmentVariables").isObjectType
                || ((propertyBag event).getProp "EnvironmentVariables").isArray) then
              .error (.error notMappingMessage)
            else
              match firstNonString ((propertyBag event).getProp "EnvironmentVariables").entries with
              | some key => .error (.error (valueTypeMessage key))
              | none =>
                .ok { outputBucket := resolvedOutputBucket OUTPUT_BUCKET event
                      lambdaBucket := (propertyBag event).getProp "LambdaBucket"
                      lambdaKey := (propertyBag event).getProp "LambdaKey"
                      payloadLang := (propertyBag event).getProp "PayloadLanguage"
                      envParams := (propertyBag event).getProp "EnvironmentVariables"
                      envFileName :=
                        ((propertyBag event).getProp "EnvironmentFile").orElse JVal.null } := by
  have m1 : missingMessage "LambdaBucket"
      = "Was not provided the \x27LambdaBucket\x27 ResourceProperty." := by decide
  have m2 : missingMessage "LambdaKey"
      = "Was not provided the \x27LambdaKey\x27 ResourceProperty." := by decide
  have m3 : missingMessage "PayloadLanguage"
      = "Was not provided the \x27PayloadLanguage\x27 ResourceProperty." := by decide
  have m4 : missingMessage "EnvironmentVariables"
      = "Was not provided the \x27EnvironmentVariables\x27 ResourceProperty." := by decide
  have t1 : typeMessage "LambdaBucket" = "Type of \x27LambdaBucket\x27 must be a String" := by
    decide
  have t2 : typeMessage "LambdaKey" = "Type of \x27LambdaKey\x27 must be a String" := by decide
  have t3 : typeMessage "PayloadLanguage"
      = "Type of \x27PayloadLanguage\x27 must be a String" := by decide
  have t4 : typeMessage "OutputBucket" = "Type of \x27OutputBucket\x27 must be a String" := by
    decide
  unfold getParameters
  simp only [requiredProperties, stringProperties, firstWhere, resolvedOutputBucket, propertyBag,
    m1, m2, m3, m4, t1, t2, t3, t4, noOutputBucketMessage, notMappingMessage, valueTypeMessage]
  by_cases h1 : ((event.ResourceProperties.orElse (JVal.obj [])).getProp "LambdaBucket").falsy
      = true
  · simp only [if_pos h1, m1]
  simp only [if_neg h1]
  by_cases h2 : ((event.ResourceProperties.orElse (JVal.obj [])).getProp "LambdaKey").falsy
      = true
  · simp only [if_pos h2, m2]
  simp only [if_neg h2]
  by_cases h3 : ((event.ResourceProperties.orElse (JVal.obj [])).getProp
      "PayloadLanguage").falsy = true
  · simp only [if_pos h3, m3]
  simp only [if_neg h3]
  by_cases h4 : ((event.ResourceProperties.orElse (JVal.obj [])).getProp
      "EnvironmentVariables").falsy = true
  · simp only [if_pos h4, m4]
  simp only [if_neg h4]
  by_cases h5 : (((event.ResourceProperties.orElse (JVal.obj [])).getProp "OutputBucket").orElse
      (envValue OUTPUT_BUCKET)).falsy = true
  · simp only [if_pos h5]
  simp only [if_neg h5]
  by_cases h6 : (!((event.ResourceProperties.orElse (JVal.obj [])).getProp
      "LambdaBucket").isString) = true
  · simp only [if_pos h6, t1]
  simp only [if_neg h6]
  by_cases h7 : (!((event.ResourceProperties.orElse (JVal.obj [])).getProp
      "LambdaKey").isString) = true
  · simp only [if_pos h7, t2]
  simp only [if_neg h7]
  by_cases h8 : (!((event.ResourceProperties.orElse (JVal.obj [])).getProp
      "PayloadLanguage").isString) = true
  · simp only [if_pos h8, t3]
  simp only [if_neg h8]
  by_cases h9 : (!(((event.ResourceProperties.orElse (JVal.obj [])).getProp
      "OutputBucket").orElse (envValue OUTPUT_BUCKET)).isString) = true
  · simp only [if_pos h9, t4]
  simp only [if_neg h9]

/-! ## Lemmas on the emitters -/

theorem paths_file_nodup (zip : Archive) (name data : String)
    (hpaths : (Archive.paths zip).Nodup) : (Archive.paths (Archive.file zip name data)).Nodup := by
  rw [paths_file]
  by_cases hmem : name ∈ Archive.paths zip
  · simpa [hmem] using hpaths
  · simp only [hmem, if_false]
    exact List.Nodup.append hpaths (List.nodup_singleton name) (by simpa using hmem)

/-- What writing one entry does to an archive whose paths are unique. -/
theorem file_frame (zip : Archive) (name data : String) (hpaths : (Archive.paths zip).Nodup) :
    (Archive.file zip name data).filter (fun e => decide (e.1 = name)) = [(name, data)]
      ∧ (Archive.file zip name data).filter (fun e => decide (e.1 ≠ name))
          = zip.filter (fun e => decide (e.1 ≠ name))
      ∧ (Archive.file zip name data).read name = some data
      ∧ (∀ path, path ≠ name → (Archive.file zip name data).read path = zip.read path)
      ∧ (Archive.paths (Archive.file zip name data)).Nodup :=
  ⟨filter_same_file zip name data hpaths, filter_other_file zip name data,
    read_file_same zip name data, fun path hne => read_file_other zip name data path hne,
    paths_file_nodup zip name data hpaths⟩

theorem toJSString_generated (defaultName : String) (envFileName : JVal) :
    toJSString (if envFileName.falsy then JVal.str defaultName else envFileName)
      = generatedFileName defaultName envFileName := by
  unfold generatedFileName
  by_cases h : envFileName.falsy = true
  · simp [h, toJSString]
  · simp [h]

theorem handleNodeLambda_eq (lambdaZip : Archive) (envFileName envParams : JVal) :
    handleNodeLambda lambdaZip envFileName envParams
      = Archive.file lambdaZip (generatedFileName "env.js" envFileName)
          (nodeFileContents envParams) := by
  simp only [handleNodeLambda, toJSString_generated]

theorem handlePythonLambda_eq (lambdaZip : Archive) (envFileName envParams : JVal) :
    handlePythonLambda lambdaZip envFileName envParams
      = Archive.file lambdaZip (generatedFileName "env.py" envFileName)
          (pythonFileContents envParams) := by
  simp only [handlePythonLambda, toJSString_generated]

theorem serializeMembers_strings (indent : String) (kvs : List (String × String)) :
    serializeMembers indent (kvs.map (fun kv => (kv.1, JVal.str kv.2)))
      = kvs.map (fun kv => quoteJSONString kv.1 ++ ": " ++ quoteJSONString kv.2) := by
  induction kvs with
  | nil => simp [serializeMembers]
  | cons kv rest ih => simp [serializeMembers, serializeJSON, ih]

/-! ## Claims on the emitters -/

/-- C1: for every input archive (with unique entry paths), every `envParams` and every
`envFileName`, the node emitter and the python emitter leave the archive equal to the input
with exactly one entry set. The entry at path `n` holds the generated text, where `n` is
`envFileName` when one is given and otherwise `env.js` for node and `env.py` for python
(given means truthy: `null`, `undefined` and the empty name count as not given). The
entries at other paths are the same entries, path and contents, as before; an existing entry
at `n` is replaced, so `n` occurs once. -/
theorem emitters_set_exactly_one_entry (lambdaZip : Archive) (envFileName envParams : JVal)
    (hpaths : (Archive.paths lambdaZip).Nodup) :
    ((handleNodeLambda lambdaZip envFileName envParams).filter
          (fun e => decide (e.1 = generatedFileName "env.js" envFileName))
        = [(generatedFileName "env.js" envFileName, nodeFileContents envParams)]
      ∧ (handleNodeLambda lambdaZip envFileName envParams).filter
          (fun e => decide (e.1 ≠ generatedFileName "env.js" envFileName))
        = lambdaZip.filter (fun e => decide (e.1 ≠ generatedFileName "env.js" envFileName))
      ∧ (handleNodeLambda lambdaZip envFileName envParams).read
          (generatedFileName "env.js" envFileName) = some (nodeFileContents envParams)
      ∧ (∀ path, path ≠ generatedFileName "env.js" envFileName →
          (handleNodeLambda lambdaZip envFileName envParams).read path = lambdaZip.read path)
      ∧ (Archive.paths (handleNodeLambda lambdaZip envFileName envParams)).Nodup)
    ∧ ((handlePythonLambda lambdaZip envFileName envParams).filter
          (fun e => decide (e.1 = generatedFileName "env.py" envFileName))
        = [(generatedFileName "env.py" envFileName, pythonFileContents envParams)]
      ∧ (handlePythonLambda lambdaZip envFileName envParams).filter
          (fun e => decide (e.1 ≠ generatedFileName "env.py" envFileName))
        = lambdaZip.filter (fun e => decide (e.1 ≠ generatedFileName "env.py" envFileName))
      ∧ (handlePythonLambda lambdaZip envFileName envParams).read
          (generatedFileName "env.py" envFileName) = some (pythonFileContents envParams)
      ∧ (∀ path, path ≠ generatedFileName "env.py" envFileName →
          (handlePythonLambda lambdaZip envFileName envParams).read path = lambdaZip.read path)
      ∧ (Archive.paths (handlePythonLambda lambdaZip envFileName envParams)).Nodup)
    ∧ (∀ defaultName name, name ≠ "" →
        generatedFileName defaultName (JVal.str name) = name)
    ∧ (∀ defaultName, generatedFileName defaultName JVal.null = defaultName
        ∧ generatedFileName defaultName JVal.undefined = defaultName) := by
  refine ⟨?_, ?_, ?_, ?_⟩
  · rw [handleNodeLambda_eq]
    exact file_frame lambdaZip _ _ hpaths
  · rw [handlePythonLambda_eq]
    exact file_frame lambdaZip _ _ hpaths
  · intro defaultName name hname
    simp [generatedFileName, JVal.falsy, hname, toJSString]
  · intro defaultName
    simp [generatedFileName, JVal.falsy]

/-- C1 at a concrete input: an archive holding `index.js` and a stale `env.js`, no file name
given, one variable. -/
theorem emitters_set_exactly_one_entry_witness :
    (Archive.paths [("index.js", "exports.handler = 0"), ("env.js", "stale")]).Nodup
      ∧ handleNodeLambda [("index.js", "exports.handler = 0"), ("env.js", "stale")] JVal.null
          (JVal.obj [("API_URL", JVal.str "https://x.test")])
        = [("index.js", "exports.handler = 0"),
            ("env.js", nodeFileContents (JVal.obj [("API_URL", JVal.str "https://x.test")]))]
      ∧ (handlePythonLambda [("index.js", "exports.handler = 0"), ("env.js", "stale")]
          (JVal.str "settings.py") (JVal.obj [("DB", JVal.str "pg://h/d")])).read "settings.py"
        = some (pythonFileContents (JVal.obj [("DB", JVal.str "pg://h/d")])) :=
  ⟨by decide, by rfl,
    (emitters_set_exactly_one_entry [("index.js", "exports.handler = 0"), ("env.js", "stale")]
      (JVal.str "settings.py") (JVal.obj [("DB", JVal.str "pg://h/d")]) (by decide)).2.1.2.2.1⟩

/-- C2: for both emitters and for every `envParams` and `envFileName`, the generated file
text is a fixed language-specific text, then `JSON.stringify(envParams, null, 2)`, then a
fixed language-specific text; neither fixed text depends on `envParams` or `envFileName`,
and that is the text stored in the archive. On a mapping of strings the JSON text holds
each key and each value only through the JSON string literalizer, one member a line at an
indent of two spaces. -/
theorem generated_text_is_fixed_text_around_json (lambdaZip : Archive)
    (envFileName envParams : JVal) (kvs : List (String × String)) :
    (handleNodeLambda lambdaZip envFileName envParams).read
        (generatedFileName "env.js" envFileName)
      = some ("\nconst envVars = " ++ jsonStringifyText envParams
          ++ ";\n\nfor (const [key, val] of Object.entries(envVars)) \x7b\n  process.env[key] = val;\n\x7d\n\nmodule.exports = envVar;\n")
    ∧ (handlePythonLambda lambdaZip envFileName envParams).read
        (generatedFileName "env.py" envFileName)
      = some ("\nimport os\n\nenv_vars = " ++ jsonStringifyText envParams
          ++ "\n\nfor key, value in env_vars.items():\n  os.environ[key] = value\n")
    ∧ jsonStringifyText (JVal.obj (kvs.map (fun kv => (kv.1, JVal.str kv.2))))
      = (if kvs = [] then "\x7b\x7d"
         else "\x7b\n  " ++ String.intercalate ",\n  "
            (kvs.map (fun kv => quoteJSONString kv.1 ++ ": " ++ quoteJSONString kv.2))
          ++ "\n\x7d") := by
  refine ⟨?_, ?_, ?_⟩
  · rw [handleNodeLambda_eq, read_file_same]
    rfl
  · rw [handlePythonLambda_eq, read_file_same]
    rfl
  · cases kvs with
    | nil => rfl
    | cons kv rest =>
      have hmembers := serializeMembers_strings ("" ++ "  ") (kv :: rest)
      simp only [List.map_cons] at hmembers
      simp only [jsonStringifyText, jsonStringify, serializeJSON, List.map_cons, hmembers]
      simp only [Option.getD_some, reduceCtorEq, if_false]
      have hclose : "\n" ++ "\x7d" = "\n\x7d" := by decide
      have hopen : "\x7b\n" ++ "" ++ "  " = "\x7b\n  " := by decide
      have hsep : ",\n" ++ "" ++ "  " = ",\n  " := by decide
      rw [hopen, hsep, String.append_assoc _ "" "\x7d", String.append_assoc _ "\n" _]
      rfl

/-! ## Claims on `getParameters` -/

theorem firstWhere_eq_none (test : JVal → Bool) (l : List (String × JVal)) :
    firstWhere test l = none ↔ ∀ p ∈ l, test p.2 = false := by
  induction l with
  | nil => simp [firstWhere]
  | cons p rest ih =>
    obtain ⟨name, v⟩ := p
    by_cases hv : test v = true
    · simp [firstWhere, hv]
    · simp [firstWhere, hv, ih]

/-- When `getParameters` returns, every rule has passed and the parameters are the
properties read from the bag. -/
theorem getParameters_ok_iff (OUTPUT_BUCKET : Option String) (event : Event)
    (params : HandlerParameters) :
    getParameters OUTPUT_BUCKET event = .ok params ↔
      (firstWhere JVal.falsy (requiredProperties event) = none
        ∧ (resolvedOutputBucket OUTPUT_BUCKET event).falsy = false
        ∧ firstWhere (fun v => !v.isString) (stringProperties OUTPUT_BUCKET event) = none
        ∧ (∃ ps, (propertyBag event).getProp "EnvironmentVariables" = JVal.obj ps
            ∧ firstNonString ps = none)
        ∧ params = { outputBucket := resolvedOutputBucket OUTPUT_BUCKET event
                     lambdaBucket := (propertyBag event).getProp "LambdaBucket"
                     lambdaKey := (propertyBag event).getProp "LambdaKey"
                     payloadLang := (propertyBag event).getProp "PayloadLanguage"
                     envParams := (propertyBag event).getProp "EnvironmentVariables"
                     envFileName :=
                       ((propertyBag event).getProp "EnvironmentFile").orElse JVal.null }) := by
  rw [getParameters_eq]
  cases h1 : firstWhere JVal.falsy (requiredProperties event) with
  | some name => simp
  | none =>
    have hev : ((propertyBag event).getProp "EnvironmentVariables").falsy = false := by
      have := (firstWhere_eq_none _ _).1 h1
        ("EnvironmentVariables", (propertyBag event).getProp "EnvironmentVariables")
        (by simp [requiredProperties])
      simpa using this
    by_cases h2 : (resolvedOutputBucket OUTPUT_BUCKET event).falsy = true
    · simp [h2]
    · have h2f : (resolvedOutputBucket OUTPUT_BUCKET event).falsy = false := by simpa using h2
      simp only [if_neg h2]
      cases h3 : firstWhere (fun v => !v.isString) (stringProperties OUTPUT_BUCKET event) with
      | some name => simp
      | none =>
        by_cases h4 : (!((propertyBag event).getProp "EnvironmentVariables").isObjectType
            || ((propertyBag event).getProp "EnvironmentVariables").isArray) = true
        · have hnot : ¬ ∃ ps, (propertyBag event).getProp "EnvironmentVariables" = JVal.obj ps := by
            intro hps
            have := (truthy_object_iff _ hev).2 hps
            rw [this] at h4
            exact absurd h4 (by simp)
          simp only [if_pos h4]
          constructor
          · intro h
            cases h
          · rintro ⟨-, -, -, ⟨ps, hps, -⟩, -⟩
            exact absurd ⟨ps, hps⟩ hnot
        · have h4f : (!((propertyBag event).getProp "EnvironmentVariables").isObjectType
              || ((propertyBag event).getProp "EnvironmentVariables").isArray) = false := by
            simpa using h4
          obtain ⟨ps, hps⟩ := (truthy_object_iff _ hev).1 h4f
          have hentries : ((propertyBag event).getProp "EnvironmentVariables").entries = ps := by
            rw [hps]
            rfl
          simp only [if_neg h4, hentries]
          cases h5 : firstNonString ps with
          | some key =>
            constructor
            · intro h
              cases h
            · rintro ⟨-, -, -, ⟨qs, hqs, hnone⟩, -⟩
              rw [hps] at hqs
              cases hqs
              rw [h5] at hnone
              cases hnone
          | none =>
            constructor
            · intro h
              simp only [Except.ok.injEq] at h
              exact ⟨trivial, h2f, trivial, ⟨ps, hps, h5⟩, h.symm⟩
            · rintro ⟨-, -, -, -, h⟩
              rw [h]

/-- C5 as stated fails on falsy values that are present. With `LambdaBucket` = 0, present
and not a string, the error is the presence error, not the type error. With `OutputBucket`
= 0, present and not a string, and a default bucket set, no error is raised: the default is
taken. -/
theorem present_falsy_values_skip_the_type_rule :
    getParameters (some "default-bucket")
        { ResourceProperties := JVal.obj [("LambdaBucket", JVal.num 0),
            ("LambdaKey", JVal.str "index.zip"), ("PayloadLanguage", JVal.str "node"),
            ("EnvironmentVariables", JVal.obj []), ("OutputBucket", JVal.str "out")] }
      = .error (.error "Was not provided the \x27LambdaBucket\x27 ResourceProperty.")
    ∧ "Was not provided the \x27LambdaBucket\x27 ResourceProperty."
      ≠ "Type of \x27LambdaBucket\x27 must be a String"
    ∧ getParameters (some "default-bucket")
        { ResourceProperties := JVal.obj [("LambdaBucket", JVal.str "src"),
            ("LambdaKey", JVal.str "index.zip"), ("PayloadLanguage", JVal.str "node"),
            ("EnvironmentVariables", JVal.obj []), ("OutputBucket", JVal.num 0)] }
      = .ok { outputBucket := JVal.str "default-bucket", lambdaBucket := JVal.str "src"
              lambdaKey := JVal.str "index.zip", payloadLang := JVal.str "node"
              envParams := JVal.obj [], envFileName := JVal.null } :=
  ⟨by rfl, by decide, by rfl⟩

/-- C5, amended: `getParameters` applies its rules in a fixed order and raises the error of
the first rule that fails, naming the offending property. First, if `LambdaBucket`,
`LambdaKey`, `PayloadLanguage` or `EnvironmentVariables` is absent or falsy (missing,
`null`, the empty string, 0, `false`), the error names the first such one in that order.
Otherwise, if neither a truthy `OutputBucket` of the request nor the default supplies an
output bucket, the error names `OutputBucket`. Otherwise, if `LambdaBucket`, `LambdaKey`,
`PayloadLanguage` or the resolved output bucket (the `OutputBucket` of the request when
truthy, else the default) is not a string, the error is a type error naming the first such
property in that order. -/
theorem getParameters_reports_first_failing_rule (OUTPUT_BUCKET : Option String)
    (event : Event) :
    (∀ name, firstWhere JVal.falsy (requiredProperties event) = some name →
        getParameters OUTPUT_BUCKET event = .error (.error (missingMessage name)))
    ∧ (firstWhere JVal.falsy (requiredProperties event) = none →
        (resolvedOutputBucket OUTPUT_BUCKET event).falsy = true →
        getParameters OUTPUT_BUCKET event = .error (.error noOutputBucketMessage))
    ∧ (firstWhere JVal.falsy (requiredProperties event) = none →
        (resolvedOutputBucket OUTPUT_BUCKET event).falsy = false →
        ∀ name,
          firstWhere (fun v => !v.isString) (stringProperties OUTPUT_BUCKET event) = some name →
          getParameters OUTPUT_BUCKET event = .error (.error (typeMessage name)))
    ∧ (∃ rest, noOutputBucketMessage = "No \x27OutputBucket\x27 was specified." ++ rest) := by
  refine ⟨?_, ?_, ?_, ?_⟩
  · intro name h
    rw [getParameters_eq, h]
  · intro h1 h2
    rw [getParameters_eq, h1]
    simp only [h2, if_true]
  · intro h1 h2 name h3
    rw [getParameters_eq, h1]
    simp only [h2, h3]
    simp
  · exact ⟨" One can be provided globally via the VariableInjector definition\x27s EnvironmentVariables.OUTPUT_BUCKET_NAME or locally via CustomResource.Properties.OutputBucket", by rfl⟩

/-- C5, amended, at the request of the spec scenario: `LambdaBucket` is provided and `LambdaKey` is
omitted, so the error names `LambdaKey`. -/
theorem getParameters_reports_first_failing_rule_witness :
    getParameters (some "default-bucket")
        { ResourceProperties := JVal.obj [("LambdaBucket", JVal.str "src"),
            ("PayloadLanguage", JVal.str "node"), ("EnvironmentVariables", JVal.obj [])] }
      = .error (.error "Was not provided the \x27LambdaKey\x27 ResourceProperty.") :=
  (getParameters_reports_first_failing_rule (some "default-bucket")
    { ResourceProperties := JVal.obj [("LambdaBucket", JVal.str "src"),
        ("PayloadLanguage", JVal.str "node"), ("EnvironmentVariables", JVal.obj [])] }).1
    "LambdaKey" (by decide)

/-- C6: for every request whose four required properties and output bucket pass the earlier
rules: if `EnvironmentVariables` is a sequence or any other non-mapping value,
`getParameters` raises the error naming `EnvironmentVariables`; otherwise it succeeds if and
only if every value of the mapping is a string (so the empty mapping is accepted), and when
it fails the message names the first key, in entry order, whose value is not a string, in
the form `EnvironmentVariables.<key>`. -/
theorem getParameters_environment_rule (OUTPUT_BUCKET : Option String) (event : Event)
    (hrequired : firstWhere JVal.falsy (requiredProperties event) = none)
    (houtput : (resolvedOutputBucket OUTPUT_BUCKET event).falsy = false)
    (hstrings :
      firstWhere (fun v => !v.isString) (stringProperties OUTPUT_BUCKET event) = none) :
    ((∀ ps, (propertyBag event).getProp "EnvironmentVariables" ≠ JVal.obj ps) →
        getParameters OUTPUT_BUCKET event = .error (.error notMappingMessage))
    ∧ (∀ ps, (propertyBag event).getProp "EnvironmentVariables" = JVal.obj ps →
        ((∃ params, getParameters OUTPUT_BUCKET event = .ok params)
            ↔ ∀ kv ∈ ps, kv.2.isString = true)
        ∧ (ps = [] → ∃ params, getParameters OUTPUT_BUCKET event = .ok params)
        ∧ (∀ pre key val post, ps = pre ++ (key, val) :: post →
            (∀ kv ∈ pre, kv.2.isString = true) → val.isString = false →
            getParameters OUTPUT_BUCKET event = .error (.error (valueTypeMessage key)))) := by
  have hev : ((propertyBag event).getProp "EnvironmentVariables").falsy = false := by
    have := (firstWhere_eq_none _ _).1 hrequired
      ("EnvironmentVariables", (propertyBag event).getProp "EnvironmentVariables")
      (by simp [requiredProperties])
    simpa using this
  have hiff : ∀ ps, (propertyBag event).getProp "EnvironmentVariables" = JVal.obj ps →
      ((∃ params, getParameters OUTPUT_BUCKET event = .ok params)
        ↔ ∀ kv ∈ ps, kv.2.isString = true) := by
    intro ps hps
    constructor
    · rintro ⟨params, hok⟩
      obtain ⟨-, -, -, ⟨qs, hqs, hnone⟩, -⟩ := (getParameters_ok_iff _ _ _).1 hok
      rw [hps] at hqs
      cases hqs
      exact (firstNonString_eq_none ps).1 hnone
    · intro hall
      exact ⟨_, (getParameters_ok_iff _ _ _).2
        ⟨hrequired, houtput, hstrings, ⟨ps, hps, (firstNonString_eq_none ps).2 hall⟩, rfl⟩⟩
  refine ⟨?_, ?_⟩
  · intro hnot
    have h4 : (!((propertyBag event).getProp "EnvironmentVariables").isObjectType
        || ((propertyBag event).getProp "EnvironmentVariables").isArray) = true := by
      by_contra h
      obtain ⟨ps, hps⟩ := (truthy_object_iff _ hev).1 (by simpa using h)
      exact hnot ps hps
    rw [getParameters_eq, hrequired]
    simp only [houtput, hstrings, h4, if_true]
    simp
  · intro ps hps
    refine ⟨hiff ps hps, ?_, ?_⟩
    · intro hnil
      exact (hiff ps hps).2 (by simp [hnil])
    · intro pre key val post hsplit hpre hval
      have h4 : (!((propertyBag event).getProp "EnvironmentVariables").isObjectType
          || ((propertyBag event).getProp "EnvironmentVariables").isArray) = false :=
        (truthy_object_iff _ hev).2 ⟨ps, hps⟩
      rw [getParameters_eq, hrequired]
      simp only [houtput, hstrings, h4]
      simp only [hps, JVal.entries, hsplit, firstNonString_first pre post key val hpre hval]
      simp

/-- C6 at the request of the spec scenario: `EnvironmentVariables` is the mapping of `N` to
the number 7, and the message names `EnvironmentVariables.N`. -/
theorem getParameters_environment_rule_witness :
    getParameters (some "default-bucket")
        { ResourceProperties := JVal.obj [("LambdaBucket", JVal.str "src"),
            ("LambdaKey", JVal.str "index.zip"), ("PayloadLanguage", JVal.str "node"),
            ("EnvironmentVariables", JVal.obj [("N", JVal.num 7)])] }
      = .error (.error
          "EnvironmentVariables must be of type string. \x27EnvironmentVariables.N\x27 is not of type string.") :=
  ((getParameters_environment_rule (some "default-bucket")
    { ResourceProperties := JVal.obj [("LambdaBucket", JVal.str "src"),
        ("LambdaKey", JVal.str "index.zip"), ("PayloadLanguage", JVal.str "node"),
        ("EnvironmentVariables", JVal.obj [("N", JVal.num 7)])] }
    (by decide) (by decide) (by decide)).2 [("N", JVal.num 7)] (by rfl)).2.2
    [] "N" (JVal.num 7) [] (by rfl) (by simp) (by decide)

/-! ## Lemmas on `handleCreateAndUpdate` -/

theorem handleCreateAndUpdate_of_error (host : Host) (event : Event) (e : JSError)
    (h : getParameters host.OUTPUT_BUCKET event = .error e) :
    handleCreateAndUpdate host event = { calls := [], result := .error e } := by
  simp only [handleCreateAndUpdate, h]

theorem formattedAllowedLanguages_eq : formattedAllowedLanguages = "\x27node\x27, \x27python\x27" := by
  decide

theorem handleCreateAndUpdate_of_unrecognized (host : Host) (event : Event)
    (params : HandlerParameters) (h : getParameters host.OUTPUT_BUCKET event = .ok params)
    (hlang : handledLanguages (toJSString params.payloadLang) = none) :
    handleCreateAndUpdate host event
      = { calls := []
          result := .error (.error (unrecognizedMessage (toJSString params.payloadLang))) } := by
  simp only [handleCreateAndUpdate, h, hlang, formattedAllowedLanguages_eq, unrecognizedMessage]
  have hend : "\x27. Allowed: [" ++ "\x27node\x27, \x27python\x27" ++ "]"
      = "\x27. Allowed: [\x27node\x27, \x27python\x27]" := by decide
  rw [← hend]
  simp only [String.append_assoc]

theorem handledLanguages_eq_none (payloadLang : String) (hnode : payloadLang ≠ "node")
    (hpython : payloadLang ≠ "python") (hproto : payloadLang ∉ objectPrototypeNames) :
    handledLanguages payloadLang = none := by
  simp [handledLanguages, hnode, hpython, hproto]

/-- When `handleCreateAndUpdate` resolves, every step before the response has succeeded. -/
theorem handleCreateAndUpdate_ok (host : Host) (event : Event) (response : S3PayloadResponse)
    (hok : (handleCreateAndUpdate host event).result = .ok response) :
    ∃ params handleLambda lambdaZipRaw lambdaZip modified zipAsBuffer,
      getParameters host.OUTPUT_BUCKET event = .ok params
      ∧ handledLanguages (toJSString params.payloadLang) = some handleLambda
      ∧ host.getObject (toJSString params.lambdaBucket) (toJSString params.lambdaKey)
          = some lambdaZipRaw
      ∧ host.loadAsync lambdaZipRaw = some lambdaZip
      ∧ callHandler handleLambda lambdaZip params.envFileName params.envParams = .ok modified
      ∧ host.generateNodeStream modified = .ok zipAsBuffer
      ∧ host.putObject (toJSString params.outputBucket)
          (newLambdaKey (toJSString params.lambdaKey) host.now) zipAsBuffer = .ok ()
      ∧ response = { LambdaBucket := params.outputBucket
                     LambdaKey := newLambdaKey (toJSString params.lambdaKey) host.now }
      ∧ (handleCreateAndUpdate host event).calls
          = [S3Call.getObject (toJSString params.lambdaBucket) (toJSString params.lambdaKey),
             S3Call.putObject (toJSString params.outputBucket)
               (newLambdaKey (toJSString params.lambdaKey) host.now) zipAsBuffer] := by
  cases hp : getParameters host.OUTPUT_BUCKET event with
  | error e =>
    rw [handleCreateAndUpdate_of_error host event e hp] at hok
    cases hok
  | ok params =>
    cases hl : handledLanguages (toJSString params.payloadLang) with
    | none =>
      rw [handleCreateAndUpdate_of_unrecognized host event params hp hl] at hok
      cases hok
    | some handleLambda =>
      cases hg : host.getObject (toJSString params.lambdaBucket) (toJSString params.lambdaKey) with
      | none =>
        simp only [handleCreateAndUpdate, hp, hl, getLambdaZip, hg] at hok
        cases hok
      | some lambdaZipRaw =>
        cases hz : host.loadAsync lambdaZipRaw with
        | none =>
          simp only [handleCreateAndUpdate, hp, hl, getLambdaZip, hg, hz] at hok
          cases hok
        | some lambdaZip =>
          cases hc : callHandler handleLambda lambdaZip params.envFileName params.envParams with
          | error e =>
            simp only [handleCreateAndUpdate, hp, hl, getLambdaZip, hg, hz, hc] at hok
            cases hok
          | ok modified =>
            cases hs : host.generateNodeStream modified with
            | error message =>
              simp only [handleCreateAndUpdate, hp, hl, getLambdaZip, hg, hz, hc,
                uploadZipToS3, getZipBuffer, hs] at hok
              cases hok
            | ok zipAsBuffer =>
              cases hu : host.putObject (toJSString params.outputBucket)
                  (newLambdaKey (toJSString params.lambdaKey) host.now) zipAsBuffer with
              | error message =>
                simp only [handleCreateAndUpdate, hp, hl, getLambdaZip, hg, hz, hc,
                  uploadZipToS3, getZipBuffer, hs, hu] at hok
                cases hok
              | ok u =>
                simp only [handleCreateAndUpdate, hp, hl, getLambdaZip, hg, hz, hc,
                  uploadZipToS3, getZipBuffer, hs, hu, Except.ok.injEq] at hok
                refine ⟨params, handleLambda, lambdaZipRaw, lambdaZip, modified, zipAsBuffer,
                  rfl, hl, hg, hz, hc, hs, hu, hok.symm, ?_⟩
                simp only [handleCreateAndUpdate, hp, hl, getLambdaZip, hg, hz, hc,
                  uploadZipToS3, getZipBuffer, hs, hu, List.singleton_append]

/-! ## Claims on `handleCreateAndUpdate` -/

/-- C3, the behaviour of the code at `PayloadLanguage` = `constructor`: the read
`handledLanguages[payloadLang]` finds the inherited `Object`, no error is raised, the
archive is fetched, and it is stored again without a generated file. -/
theorem constructor_language_reaches_object_store :
    handledLanguages "constructor" = some (LanguageHandler.objectPrototype "constructor")
    ∧ handleCreateAndUpdate cooperativeHost (sampleEvent "constructor" JVal.undefined)
      = { calls := [S3Call.getObject "src" "index.zip",
            S3Call.putObject "out" "index.zip--env/2024-01-02T03:04:05.678Z.zip" [19]]
          result := .ok { LambdaBucket := JVal.str "out"
                          LambdaKey := "index.zip--env/2024-01-02T03:04:05.678Z.zip" } } :=
  ⟨by rfl, by rfl⟩

/-- C4, the behaviour of the code at `EnvironmentFile` = 7: the property is present and is
not a string, yet `getParameters` returns it as `envFileName`, against the typedef
`HandlerParameters` and unlike the four properties it type-checks; no error is raised, the
archive is fetched and stored, with the generated file written at the path `7`. -/
theorem non_string_file_name_reaches_object_store :
    (propertyBag (sampleEvent "node" (JVal.num 7))).getProp "EnvironmentFile" = JVal.num 7
    ∧ (JVal.num 7).isString = false
    ∧ getParameters cooperativeHost.OUTPUT_BUCKET (sampleEvent "node" (JVal.num 7))
      = .ok { outputBucket := JVal.str "out", lambdaBucket := JVal.str "src"
              lambdaKey := JVal.str "index.zip", payloadLang := JVal.str "node"
              envParams := JVal.obj [("A", JVal.str "1")], envFileName := JVal.num 7 }
    ∧ handleNodeLambda [("index.js", "exports.handler = 0")] (JVal.num 7)
        (JVal.obj [("A", JVal.str "1")])
      = [("index.js", "exports.handler = 0"),
         ("7", nodeFileContents (JVal.obj [("A", JVal.str "1")]))]
    ∧ handleCreateAndUpdate cooperativeHost (sampleEvent "node" (JVal.num 7))
      = { calls := [S3Call.getObject "src" "index.zip",
            S3Call.putObject "out" "index.zip--env/2024-01-02T03:04:05.678Z.zip" [19, 140]]
          result := .ok { LambdaBucket := JVal.str "out"
                          LambdaKey := "index.zip--env/2024-01-02T03:04:05.678Z.zip" } } :=
  ⟨by rfl, by decide, by rfl, by rfl, by rfl⟩

/-- The requests that the code does reject: for every event that `invalidRequest` holds of,
`handleCreateAndUpdate` raises an error and makes no object-store call, neither a fetch nor
a store. -/
theorem invalid_request_raises_before_object_store (host : Host) (event : Event)
    (hinvalid : invalidRequest host.OUTPUT_BUCKET event) :
    (handleCreateAndUpdate host event).calls = []
      ∧ ∃ e, (handleCreateAndUpdate host event).result = .error e := by
  cases hp : getParameters host.OUTPUT_BUCKET event with
  | error e =>
    rw [handleCreateAndUpdate_of_error host event e hp]
    exact ⟨rfl, e, rfl⟩
  | ok params =>
    obtain ⟨h1, h2, h3, ⟨ps, hps, h5⟩, hparams⟩ := (getParameters_ok_iff _ _ _).1 hp
    rcases hinvalid with ⟨p, hmem, hp1⟩ | hout | ⟨p, hmem, hp3⟩ | hnot | ⟨qs, hqs, kv, hkv, hval⟩
      | ⟨payloadLang, hlang, hnode, hpython, hproto⟩
    · have := (firstWhere_eq_none _ _).1 h1 p hmem
      rw [hp1] at this
      cases this
    · rw [h2] at hout
      cases hout
    · have := (firstWhere_eq_none _ _).1 h3 p hmem
      simp only [hp3] at this
      cases this
    · exact absurd hps (hnot ps)
    · rw [hps] at hqs
      cases hqs
      have := (firstNonString_eq_none ps).1 h5 kv hkv
      rw [hval] at this
      cases this
    · have hpl : toJSString params.payloadLang = payloadLang := by
        rw [hparams]
        simp only [hlang, toJSString]
      have hnone := handledLanguages_eq_none payloadLang hnode hpython hproto
      rw [← hpl] at hnone
      rw [handleCreateAndUpdate_of_unrecognized host event params hp hnone]
      exact ⟨rfl, _, rfl⟩

/-- The rejection at the request of the spec scenario: the language `ruby` is rejected with
no object-store call. -/
theorem invalid_request_raises_before_object_store_witness :
    invalidRequest cooperativeHost.OUTPUT_BUCKET (sampleEvent "ruby" JVal.undefined)
      ∧ (handleCreateAndUpdate cooperativeHost (sampleEvent "ruby" JVal.undefined)).calls = []
      ∧ ∃ e, (handleCreateAndUpdate cooperativeHost (sampleEvent "ruby" JVal.undefined)).result
          = .error e :=
  have hinvalid :
      invalidRequest cooperativeHost.OUTPUT_BUCKET (sampleEvent "ruby" JVal.undefined) :=
    Or.inr (Or.inr (Or.inr (Or.inr (Or.inr
      ⟨"ruby", by rfl, by decide, by decide, by decide⟩))))
  ⟨hinvalid, invalid_request_raises_before_object_store cooperativeHost
    (sampleEvent "ruby" JVal.undefined) hinvalid⟩

/-- C7: whenever `handleCreateAndUpdate` succeeds on a request with source key `k`, invoked
at a time whose ISO rendering is `t`, the response is exactly the bucket `b` with the key
`k ++ "--env/" ++ t ++ ".zip"`, where `b` is the `OutputBucket` of the request when the
request gives one (a truthy value) and the default `OUTPUT_BUCKET` otherwise; the object
store saw one fetch, of the source, and one store, of the serialised modified archive, at
exactly that bucket and key, and that store succeeded. -/
theorem success_response_names_stored_archive (host : Host) (event : Event)
    (response : S3PayloadResponse)
    (hok : (handleCreateAndUpdate host event).result = .ok response) :
    ∃ sourceBucket sourceKey bucket body,
      (propertyBag event).getProp "LambdaBucket" = JVal.str sourceBucket
      ∧ (propertyBag event).getProp "LambdaKey" = JVal.str sourceKey
      ∧ (((propertyBag event).getProp "OutputBucket").falsy = false →
          (propertyBag event).getProp "OutputBucket" = JVal.str bucket)
      ∧ (((propertyBag event).getProp "OutputBucket").falsy = true →
          host.OUTPUT_BUCKET = some bucket)
      ∧ response = { LambdaBucket := JVal.str bucket
                     LambdaKey := sourceKey ++ "--env/" ++ host.now ++ ".zip" }
      ∧ (handleCreateAndUpdate host event).calls
          = [S3Call.getObject sourceBucket sourceKey,
             S3Call.putObject bucket (sourceKey ++ "--env/" ++ host.now ++ ".zip") body]
      ∧ host.putObject bucket (sourceKey ++ "--env/" ++ host.now ++ ".zip") body = .ok ()
      ∧ ∃ payloadLang handleLambda lambdaZipRaw lambdaZip modified,
          (propertyBag event).getProp "PayloadLanguage" = JVal.str payloadLang
          ∧ handledLanguages payloadLang = some handleLambda
          ∧ host.getObject sourceBucket sourceKey = some lambdaZipRaw
          ∧ host.loadAsync lambdaZipRaw = some lambdaZip
          ∧ callHandler handleLambda lambdaZip
              (((propertyBag event).getProp "EnvironmentFile").orElse JVal.null)
              ((propertyBag event).getProp "EnvironmentVariables") = .ok modified
          ∧ host.generateNodeStream modified = .ok body := by
  obtain ⟨params, handleLambda, lambdaZipRaw, lambdaZip, modified, body, hp, hl, hg, hz, hc,
    hs, hu, hresp, hcalls⟩ := handleCreateAndUpdate_ok host event response hok
  obtain ⟨-, -, h3, -, hparams⟩ := (getParameters_ok_iff _ _ _).1 hp
  have hall := (firstWhere_eq_none _ _).1 h3
  have hlb : ((propertyBag event).getProp "LambdaBucket").isString = true := by
    have := hall ("LambdaBucket", (propertyBag event).getProp "LambdaBucket")
      (by simp [stringProperties])
    simpa using this
  have hlk : ((propertyBag event).getProp "LambdaKey").isString = true := by
    have := hall ("LambdaKey", (propertyBag event).getProp "LambdaKey")
      (by simp [stringProperties])
    simpa using this
  have hpl : ((propertyBag event).getProp "PayloadLanguage").isString = true := by
    have := hall ("PayloadLanguage", (propertyBag event).getProp "PayloadLanguage")
      (by simp [stringProperties])
    simpa using this
  have hob : (resolvedOutputBucket host.OUTPUT_BUCKET event).isString = true := by
    have := hall ("OutputBucket", resolvedOutputBucket host.OUTPUT_BUCKET event)
      (by simp [stringProperties])
    simpa using this
  obtain ⟨sourceBucket, hsb⟩ := (isString_iff _).1 hlb
  obtain ⟨sourceKey, hsk⟩ := (isString_iff _).1 hlk
  obtain ⟨payloadLang, hlang⟩ := (isString_iff _).1 hpl
  obtain ⟨bucket, hbucket⟩ := (isString_iff _).1 hob
  subst hparams
  simp only [hsb, hsk, hlang, hbucket, toJSString] at hl hg hc hu hresp hcalls
  refine ⟨sourceBucket, sourceKey, bucket, body, hsb, hsk, ?_, ?_, ?_, ?_, hu, payloadLang,
    handleLambda, lambdaZipRaw, lambdaZip, modified, hlang, hl, hg, hz, hc, hs⟩
  · intro hgiven
    simpa [resolvedOutputBucket, JVal.orElse, hgiven] using hbucket
  · intro hgiven
    have henv : envValue host.OUTPUT_BUCKET = JVal.str bucket := by
      simpa [resolvedOutputBucket, JVal.orElse, hgiven] using hbucket
    cases hO : host.OUTPUT_BUCKET with
    | none =>
      rw [hO] at henv
      cases henv
    | some b =>
      rw [hO] at henv
      simp only [envValue, JVal.str.injEq] at henv
      rw [henv]
  · rw [hresp]
    rfl
  · rw [hcalls]
    rfl

/-- C7 at a concrete run: a node request with its own output bucket on a host where every
call succeeds. -/
theorem success_response_names_stored_archive_witness :
    (handleCreateAndUpdate cooperativeHost (sampleEvent "node" JVal.undefined)).result
        = .ok { LambdaBucket := JVal.str "out"
                LambdaKey := "index.zip--env/2024-01-02T03:04:05.678Z.zip" }
      ∧ ∃ sourceBucket sourceKey bucket body,
        (handleCreateAndUpdate cooperativeHost (sampleEvent "node" JVal.undefined)).calls
          = [S3Call.getObject sourceBucket sourceKey,
             S3Call.putObject bucket (sourceKey ++ "--env/" ++ cooperativeHost.now ++ ".zip")
               body]
          ∧ cooperativeHost.putObject bucket
              (sourceKey ++ "--env/" ++ cooperativeHost.now ++ ".zip") body = .ok () :=
  ⟨by rfl,
    match success_response_names_stored_archive cooperativeHost
      (sampleEvent "node" JVal.undefined)
      { LambdaBucket := JVal.str "out"
        LambdaKey := "index.zip--env/2024-01-02T03:04:05.678Z.zip" } (by rfl) with
    | ⟨sourceBucket, sourceKey, bucket, body, _, _, _, _, _, hcalls, hstored, _⟩ =>
      ⟨sourceBucket, sourceKey, bucket, body, hcalls, hstored⟩⟩

/-- C8: the output key `sourceKey ++ "--env/" ++ timestamp ++ ".zip"` is never its own
source key, and over timestamps of one length it is injective: two invocations that differ
in their timestamp or in their source key get different output keys. -/
theorem newLambdaKey_fresh_and_injective (sourceKey1 timestamp1 sourceKey2 timestamp2 : String)
    (hlength : timestamp1.length = timestamp2.length) :
    newLambdaKey sourceKey1 timestamp1 = sourceKey1 ++ "--env/" ++ timestamp1 ++ ".zip"
      ∧ newLambdaKey sourceKey1 timestamp1 ≠ sourceKey1
      ∧ (newLambdaKey sourceKey1 timestamp1 = newLambdaKey sourceKey2 timestamp2 →
          sourceKey1 = sourceKey2 ∧ timestamp1 = timestamp2)
      ∧ (sourceKey1 ≠ sourceKey2 ∨ timestamp1 ≠ timestamp2 →
          newLambdaKey sourceKey1 timestamp1 ≠ newLambdaKey sourceKey2 timestamp2) := by
  have hinj : newLambdaKey sourceKey1 timestamp1 = newLambdaKey sourceKey2 timestamp2 →
      sourceKey1 = sourceKey2 ∧ timestamp1 = timestamp2 := by
    intro h
    have hdata := congrArg String.data h
    simp only [newLambdaKey, String.data_append, List.append_assoc] at hdata
    have hlen := congrArg List.length hdata
    have hl : timestamp1.data.length = timestamp2.data.length := hlength
    simp only [List.length_append] at hlen
    have hk : sourceKey1.data.length = sourceKey2.data.length := by omega
    obtain ⟨hkeys, hrest⟩ := List.append_inj hdata hk
    have hrest2 := List.append_cancel_left hrest
    obtain ⟨htimes, -⟩ := List.append_inj hrest2 hl
    exact ⟨String.ext hkeys, String.ext htimes⟩
  refine ⟨rfl, ?_, hinj, ?_⟩
  · intro h
    have hlen := congrArg String.length h
    simp only [newLambdaKey, String.length_append] at hlen
    have h6 : "--env/".length = 6 := by decide
    have h4 : ".zip".length = 4 := by decide
    omega
  · intro hdiff h
    obtain ⟨hk, ht⟩ := hinj h
    rcases hdiff with hd | hd
    · exact hd hk
    · exact hd ht

/-- C8 at two invocations on one source key, one millisecond apart. -/
theorem newLambdaKey_fresh_and_injective_witness :
    "2024-01-02T03:04:05.678Z".length = "2024-01-02T03:04:05.679Z".length
      ∧ newLambdaKey "index.zip" "2024-01-02T03:04:05.678Z"
          ≠ newLambdaKey "index.zip" "2024-01-02T03:04:05.679Z" :=
  ⟨by decide,
    (newLambdaKey_fresh_and_injective "index.zip" "2024-01-02T03:04:05.678Z" "index.zip"
      "2024-01-02T03:04:05.679Z" (by decide)).2.2.2 (Or.inr (by decide))⟩

/-- C9, the behaviour of the code: for every `envParams` the generated node module declares
and iterates `envVars`, and its last statement assigns to `module.exports` the name
`envVar`, which the module never declares. -/
theorem node_module_exports_undeclared_name (envParams : JVal) :
    nodeFileContents envParams
      = "\nconst envVars = " ++ jsonStringifyText envParams
        ++ ";\n\nfor (const [key, val] of Object.entries(envVars)) \x7b\n  process.env[key] = val;\n\x7d\n\n"
        ++ "module.exports = envVar;\n"
    ∧ nodeFileContents (JVal.obj [])
      = "\nconst envVars = \x7b\x7d;\n\nfor (const [key, val] of Object.entries(envVars)) \x7b\n  process.env[key] = val;\n\x7d\n\nmodule.exports = envVar;\n" := by
  refine ⟨?_, by rfl⟩
  simp only [nodeFileContents, String.append_assoc]
  rfl

/-- C10: for every event the `create` and `update` entry points behave identically. Each
makes the object-store calls of `handleCreateAndUpdate`; when it succeeds each returns the
constant id `lambda-edge-variable-injector` with the response as data, so the id returned by
a create equals the id returned by an update for any inputs; when it raises an error both
surface that error. -/
theorem create_and_update_agree (host : Host) (event : Event) :
    create host event = update host event
      ∧ (create host event).calls = (handleCreateAndUpdate host event).calls
      ∧ (∀ response, (handleCreateAndUpdate host event).result = .ok response →
          (create host event).result
              = .ok { id := "lambda-edge-variable-injector", data := response }
            ∧ (update host event).result
              = .ok { id := "lambda-edge-variable-injector", data := response })
      ∧ (∀ e, (handleCreateAndUpdate host event).result = .error e →
          (create host event).result = .error e ∧ (update host event).result = .error e)
      ∧ (∀ (host2 : Host) (event2 : Event) (created updated : ResourceResult),
          (create host event).result = .ok created →
          (update host2 event2).result = .ok updated → created.id = updated.id) := by
  refine ⟨rfl, rfl, ?_, ?_, ?_⟩
  · intro response h
    simp only [create, update, h, Except.map, PHYSICAL_RESOURCE_ID, and_self]
  · intro e h
    simp only [create, update, h, Except.map, and_self]
  · intro host2 event2 created updated hc hu
    simp only [create, Except.map] at hc
    simp only [update, Except.map] at hu
    cases h1 : (handleCreateAndUpdate host event).result with
    | error e =>
      rw [h1] at hc
      cases hc
    | ok r1 =>
      cases h2 : (handleCreateAndUpdate host2 event2).result with
      | error e =>
        rw [h2] at hu
        cases hu
      | ok r2 =>
        rw [h1] at hc
        rw [h2] at hu
        simp only [Except.ok.injEq] at hc hu
        rw [← hc, ← hu]

end VariableInjector
